import Mathlib

/-!
Verification of the request-translation and resilience core of an
OpenAlex MCP server, shallowly embedded from its TypeScript source:

* `SimpleCache` (bounded TTL cache with insertion-order eviction) from
  `openalex-client` (`SimpleCache.get` / `SimpleCache.set`),
* the client operations `getEntity` / `searchEntities` as explicit
  state-passing functions over a cache plus an upstream-call counter,
* `buildQueryParams` and the cache-key construction (`JSON.stringify`
  of the ordered parameter record),
* `buildFilter` (tool-parameter bag to filter set, year-range logic),
* `summarizeWork` (summary projection) and `reconstructAbstract`
  (positional inverted-index reconstruction) from `index.ts`,
* `retryWithBackoff` (capped exponential backoff) with the retry
  constants from `config.ts`.

JavaScript `Map` iteration order, string-template rendering and value
truthiness (`0`, `""`, `undefined` are falsy) are modelled explicitly;
machine numbers are modelled as `Int`/`Nat` (the quantities involved are
integers and times; no fractional or overflow behaviour is relevant).
-/

/-! ## JavaScript truthiness helpers -/

/-- Truthiness of an optional JS string: `undefined` and `""` are falsy. -/
def strTruthy : Option String → Bool
  | none => false
  | some s => s != ""

/-- Truthiness of an optional JS number: `undefined` and `0` are falsy. -/
def numTruthy : Option Int → Bool
  | none => false
  | some n => n != 0

/-- JS `a || b` on optional numbers: `a` when truthy, otherwise `b` as-is. -/
def jsOrNum (a b : Option Int) : Option Int :=
  if numTruthy a then a else b

/-! ## SimpleCache (openalex-client)

`class SimpleCache` stores a JS `Map<string, CacheEntry>`; a `Map` keeps
insertion order, `set` on an existing key updates it in place, and
`keys().next().value` is the oldest-inserted key.  The entry list below
is that `Map`: association list in insertion order, keys unique. -/

structure CacheEntry (T : Type) where
  data : T
  timestamp : Nat
deriving Repr, DecidableEq

structure SimpleCache (T : Type) where
  entries : List (String × CacheEntry T)
  maxSize : Nat
  ttl : Nat
deriving Repr, DecidableEq

/-- JS `Map.set`: update in place when the key exists, else append. -/
def mapSet {T : Type} (es : List (String × CacheEntry T)) (key : String)
    (e : CacheEntry T) : List (String × CacheEntry T) :=
  if es.any (fun kv => kv.1 == key) then
    es.map (fun kv => if kv.1 == key then (key, e) else kv)
  else
    es ++ [(key, e)]

/-- JS `Map.delete`: remove the entry of `key` (keys are unique). -/
def mapDelete {T : Type} (es : List (String × CacheEntry T)) (key : String) :
    List (String × CacheEntry T) :=
  es.filter (fun kv => kv.1 != key)

/-- `SimpleCache.get`: miss on absent key; lazily delete and miss when
`now - entry.timestamp > ttl`; otherwise return the data.  Returns the
possibly-shrunk cache alongside the result. -/
def SimpleCache.get {T : Type} (c : SimpleCache T) (key : String) (now : Nat) :
    Option T × SimpleCache T :=
  match c.entries.find? (fun kv => kv.1 == key) with
  | none => (none, c)
  | some kv =>
    if now - kv.2.timestamp > c.ttl then
      (none, { c with entries := mapDelete c.entries key })
    else
      (some kv.2.data, c)

/-- `SimpleCache.set`: when `size >= maxSize`, read the oldest-inserted
key and delete it only if it is truthy (`if (firstKey)` skips both an
absent key and the empty string); then `Map.set` the new entry. -/
def SimpleCache.set {T : Type} (c : SimpleCache T) (key : String) (v : T)
    (now : Nat) : SimpleCache T :=
  let es :=
    if c.entries.length ≥ c.maxSize then
      match c.entries.head? with
      | some first => if first.1 != "" then mapDelete c.entries first.1 else c.entries
      | none => c.entries
    else c.entries
  { c with entries := mapSet es key ⟨v, now⟩ }

/-- A fresh cache of the given capacity and TTL. -/
def SimpleCache.empty (T : Type) (maxSize ttl : Nat) : SimpleCache T :=
  ⟨[], maxSize, ttl⟩

/-- Insert the keys in order, each with the same value and timestamp
(the timestamps play no role in `set`). -/
def insertKeys {T : Type} (c : SimpleCache T) (ks : List String) (v : T)
    (t : Nat) : SimpleCache T :=
  ks.foldl (fun acc k => SimpleCache.set acc k v t) c

/-! ## Query parameters and cache keys (openalex-client) -/

/-- A `FilterOptions` value is `string | number | boolean`. -/
inductive FilterVal where
  | str (s : String)
  | int (n : Int)
  | bool (b : Bool)
deriving Repr, DecidableEq

/-- JS template rendering `${value}` of a filter value. -/
def renderFilterVal : FilterVal → String
  | .str s => s
  | .int n => toString n
  | .bool b => if b then "true" else "false"

/-- `SearchOptions` of the client; object fields in declaration order,
absent fields are `undefined`. `filter` is the ordered entry list of the
`FilterOptions` object (JS object iteration order = insertion order). -/
structure SearchOptions where
  search : Option String := none
  filter : Option (List (String × FilterVal)) := none
  sort : Option String := none
  page : Option Int := none
  perPage : Option Int := none
  select : Option (List String) := none
  groupBy : Option String := none
  sample : Option Int := none
deriving Repr, DecidableEq

/-- Client identity configuration (`email`, `apiKey`). -/
structure ClientCfg where
  email : Option String := none
  apiKey : Option String := none
deriving Repr, DecidableEq

/-- `OpenAlexClient.buildQueryParams`, returning the `params` record as
the ordered list of its string entries (JS objects preserve insertion
order for string keys, which is the order of the assignments in the
source). -/
def buildQueryParams (cfg : ClientCfg) (o : SearchOptions) : List (String × String) :=
  (if strTruthy cfg.email && !(strTruthy cfg.apiKey) then
      [("mailto", cfg.email.getD "")] else [])
  ++ (if strTruthy cfg.apiKey then [("api_key", cfg.apiKey.getD "")] else [])
  ++ (if strTruthy o.search then [("search", o.search.getD "")] else [])
  ++ (match o.filter with
      | some fs =>
        let filters := fs.map (fun kv => kv.1 ++ ":" ++ renderFilterVal kv.2)
        if filters.length > 0 then [("filter", String.intercalate "," filters)] else []
      | none => [])
  ++ (if strTruthy o.sort then [("sort", o.sort.getD "")] else [])
  ++ (if numTruthy o.page then [("page", toString (o.page.getD 0))] else [])
  ++ (if numTruthy o.perPage then [("per_page", toString (o.perPage.getD 0))] else [])
  ++ (match o.select with
      | some sel => if sel.length > 0 then [("select", String.intercalate "," sel)] else []
      | none => [])
  ++ (if strTruthy o.groupBy then [("group_by", o.groupBy.getD "")] else [])
  ++ (if numTruthy o.sample then [("sample", toString (o.sample.getD 0))] else [])

/-- JS `s.substring(0, n)`: the first `n` characters of `s`. -/
def jsSubstring (s : String) (n : Nat) : String :=
  String.mk (s.data.take n)

/-- Escape of a character inside a JSON string literal (the inputs in
this development contain no control characters, so only `"` and `\`
need escaping, as `JSON.stringify` does for them). -/
def jsEscape (s : String) : String :=
  String.mk (s.data.foldr
    (fun c acc => if c = '"' ∨ c = '\\' then '\\' :: c :: acc else c :: acc) [])

/-- `JSON.stringify` of a `Record<string, string>` in key insertion order. -/
def jsonStringify (ps : List (String × String)) : String :=
  "\x7b" ++
    String.intercalate ","
      (ps.map (fun kv => "\"" ++ jsEscape kv.1 ++ "\":\"" ++ jsEscape kv.2 ++ "\"")) ++
  "\x7d"

/-- `getEntity` cache key: `` `${entityType}/${id}` ``. -/
def getEntityCacheKey (entityType id : String) : String :=
  entityType ++ "/" ++ id

/-- `getEntity` request path: `` `/${entityType}/${id}` `` — the incoming
identifier is interpolated into the path as-is. -/
def getEntityRequestPath (entityType id : String) : String :=
  "/" ++ entityType ++ "/" ++ id

/-- `searchEntities` cache key: `` `${entityType}?${JSON.stringify(params)}` ``. -/
def searchCacheKey (cfg : ClientCfg) (entityType : String) (o : SearchOptions) : String :=
  entityType ++ "?" ++ jsonStringify (buildQueryParams cfg o)

/-! ## Client operations as state machines

`getEntity` / `searchEntities` sequenced over a state consisting of the
cache and a counter of upstream HTTP calls.  `fetched` stands for the
(successful) upstream response of this call. -/

structure ClientState (T : Type) where
  cache : SimpleCache T
  upstreamCalls : Nat
deriving Repr, DecidableEq

/-- Fresh client state: empty cache, no upstream calls yet. -/
def initialClientState (T : Type) (maxSize ttl : Nat) : ClientState T :=
  ⟨SimpleCache.empty T maxSize ttl, 0⟩

/-- The caching discipline shared verbatim by `getEntity`,
`searchEntities`, `autocomplete` and `findSimilarWorks`: consult the
cache when `enableCache`; on a miss (or with caching disabled) perform
the upstream call, and store the result when `enableCache`. -/
def cachedFetch {T : Type} (enableCache : Bool) (key : String) (fetched : T)
    (now : Nat) (st : ClientState T) : T × ClientState T :=
  if enableCache then
    match SimpleCache.get st.cache key now with
    | (some v, c2) => (v, { st with cache := c2 })
    | (none, c2) =>
      (fetched,
        { cache := SimpleCache.set c2 key fetched now,
          upstreamCalls := st.upstreamCalls + 1 })
  else
    (fetched, { st with upstreamCalls := st.upstreamCalls + 1 })

/-- `OpenAlexClient.getEntity`: cached fetch keyed by entity type and id. -/
def getEntity {T : Type} (enableCache : Bool) (fetched : T)
    (entityType id : String) (now : Nat) (st : ClientState T) : T × ClientState T :=
  cachedFetch enableCache (getEntityCacheKey entityType id) fetched now st

/-- `OpenAlexClient.searchEntities`: cached fetch keyed by entity type
and the `JSON.stringify` of the normalized query parameters. -/
def searchEntities {T : Type} (enableCache : Bool) (cfg : ClientCfg) (fetched : T)
    (entityType : String) (o : SearchOptions) (now : Nat) (st : ClientState T) :
    T × ClientState T :=
  cachedFetch enableCache (searchCacheKey cfg entityType o) fetched now st

/-! ## Retry with exponential backoff (openalex-client + config) -/

structure RetryConfig where
  maxRetries : Nat
  initialDelayMs : Nat
  maxDelayMs : Nat
  backoffFactor : Nat
deriving Repr, DecidableEq

/-- `CONFIG.API.RETRY` from `config.ts`. -/
def configRetry : RetryConfig :=
  { maxRetries := 3, initialDelayMs := 1000, maxDelayMs := 10000, backoffFactor := 2 }

/-- The retry loop of `retryWithBackoff`: `fn attempt` is the outcome of
the upstream call on the 0-based attempt `attempt`; `remaining` is the
number of loop iterations left (`maxRetries - attempt`).  Returns the
final outcome, the number of attempts performed, and the list of backoff
delays slept (a delay is slept only when another attempt follows, i.e.
`attempt < maxRetries - 1`). -/
def retryGo {α : Type} (cfg : RetryConfig) (context : String)
    (fn : Nat → Except String α) :
    Nat → Nat → Option String → Except String α × Nat × List Nat
  | 0, attempt, lastError =>
    (Except.error (context ++ ": Failed after " ++ toString cfg.maxRetries ++
        " attempts. Last error: " ++
        (match lastError with | some m => m | none => "undefined")),
      attempt, [])
  | remaining + 1, attempt, _ =>
    match fn attempt with
    | Except.ok v => (Except.ok v, attempt + 1, [])
    | Except.error e =>
      let rest := retryGo cfg context fn remaining (attempt + 1) (some e)
      if remaining > 0 then
        (rest.1, rest.2.1,
          Nat.min (cfg.initialDelayMs * cfg.backoffFactor ^ attempt) cfg.maxDelayMs
            :: rest.2.2)
      else rest

/-- `OpenAlexClient.retryWithBackoff`. -/
def retryWithBackoff {α : Type} (cfg : RetryConfig) (context : String)
    (fn : Nat → Except String α) : Except String α × Nat × List Nat :=
  retryGo cfg context fn cfg.maxRetries 0 none

/-! ## Filter normalizer (index.ts, current-generation `buildFilter`) -/

/-- The tool-parameter bag fields read by `buildFilter`; `none` is an
absent (`undefined`) field. -/
structure ToolParams where
  from_publication_year : Option Int := none
  from_year : Option Int := none
  to_publication_year : Option Int := none
  to_year : Option Int := none
  cited_by_count : Option String := none
  is_oa : Option Bool := none
  type : Option String := none
  works_count : Option String := none
  country_code : Option String := none
  institution : Option String := none
deriving Repr, DecidableEq

/-- The `publication_year` entry of `buildFilter`: resolve the year
bounds with JS `||` (`params.from_publication_year || params.from_year`
and likewise for `to`), then collapse them into a single range /
one-sided comparison entry. -/
def yearFilterEntries (p : ToolParams) : List (String × FilterVal) :=
  if numTruthy (jsOrNum p.from_publication_year p.from_year) &&
      numTruthy (jsOrNum p.to_publication_year p.to_year) then
    [("publication_year",
      FilterVal.str
        (toString ((jsOrNum p.from_publication_year p.from_year).getD 0) ++ "-" ++
          toString ((jsOrNum p.to_publication_year p.to_year).getD 0)))]
  else if numTruthy (jsOrNum p.from_publication_year p.from_year) then
    [("publication_year",
      FilterVal.str
        (">" ++ toString ((jsOrNum p.from_publication_year p.from_year).getD 0 - 1)))]
  else if numTruthy (jsOrNum p.to_publication_year p.to_year) then
    [("publication_year",
      FilterVal.str
        ("<" ++ toString ((jsOrNum p.to_publication_year p.to_year).getD 0 + 1)))]
  else []

/-- The pass-through entries of `buildFilter` (`cited_by_count`, `is_oa`
checked against `undefined`, `type`, `works_count`, `country_code`,
`institution`), in assignment order. -/
def passThroughFilters (p : ToolParams) : List (String × FilterVal) :=
  (if strTruthy p.cited_by_count then
      [("cited_by_count", FilterVal.str (p.cited_by_count.getD ""))] else [])
  ++ (match p.is_oa with
      | some b => [("is_oa", FilterVal.bool b)]
      | none => [])
  ++ (if strTruthy p.type then [("type", FilterVal.str (p.type.getD ""))] else [])
  ++ (if strTruthy p.works_count then
        [("works_count", FilterVal.str (p.works_count.getD ""))] else [])
  ++ (if strTruthy p.country_code then
        [("country_code", FilterVal.str (p.country_code.getD ""))] else [])
  ++ (if strTruthy p.institution then
        [("institutions.display_name", FilterVal.str (p.institution.getD ""))] else [])

/-- `buildFilter` from `index.ts` (the generation with year-range
collapsing): the year entry followed by the pass-through filters.
Result is the ordered entry list of the filter object. -/
def buildFilter (p : ToolParams) : List (String × FilterVal) :=
  yearFilterEntries p ++ passThroughFilters p

/-! ## Response reshaping (index.ts) -/

structure Authorship where
  name : String
  institutions : List String
deriving Repr, DecidableEq

/-- The fields of a work record that the summary projection reads.  The
abstract is stored upstream as an inverted index: ordered list of
(word, positions) entries of the JS object. -/
structure Work where
  authorships : Option (List Authorship) := none
  abstract_inverted_index : Option (List (String × List Nat)) := none
deriving Repr, DecidableEq

structure SummaryAuthor where
  name : String
  institutions : List String
deriving Repr, DecidableEq

structure WorkSummary where
  authors : List SummaryAuthor
  authors_truncated : Bool
  abstract : Option String
deriving Repr, DecidableEq

/-- `summarizeWork` (the claim-relevant fields): `authorships?.slice(0,5)`
mapped to name plus first 2 institutions (`|| []`), the
`authorships?.length > 5` flag (`undefined > 5` is `false`), and the
abstract preview `Object.keys(idx).slice(0,100).join(' ').substring(0,500) + '...'`. -/
def summarizeWork (w : Work) : WorkSummary :=
  { authors :=
      ((w.authorships.getD []).take 5).map
        (fun a => ⟨a.name, a.institutions.take 2⟩),
    authors_truncated :=
      match w.authorships with
      | some l => decide (l.length > 5)
      | none => false,
    abstract :=
      match w.abstract_inverted_index with
      | some ix =>
        some (jsSubstring (String.intercalate " " ((ix.map Prod.fst).take 100)) 500 ++ "...")
      | none => none }

/-- One step of filling the `words` table of `reconstructAbstract`:
`words[pos] = word` on a numeric-keyed object, modelled as in-place
update when the position exists, else append. -/
def assocSet (m : List (Nat × String)) (p : Nat) (w : String) : List (Nat × String) :=
  if m.any (fun e => e.1 == p) then
    m.map (fun e => if e.1 == p then (p, w) else e)
  else m ++ [(p, w)]

/-- The `words` table after iterating all (word, positions) entries. -/
def buildWords (ix : List (String × List Nat)) : List (Nat × String) :=
  ix.foldl (fun m e => e.2.foldl (fun m2 p => assocSet m2 p e.1) m) []

/-- `reconstructAbstract`: place each word at each of its positions,
sort the occupied positions ascending, and join the words with spaces. -/
def reconstructAbstract (ix : List (String × List Nat)) : String :=
  let words := buildWords ix
  let sortedPositions := List.insertionSort (fun a b => a ≤ b) (words.map Prod.fst)
  String.intercalate " " (sortedPositions.map (fun p => (words.lookup p).getD ""))

/-- Flattened (position, word) pairs of an inverted index, in iteration
order; used to state reconstruction correctness. -/
def indexPairs (ix : List (String × List Nat)) : List (Nat × String) :=
  ix.flatMap (fun e => e.2.map (fun p => (p, e.1)))

/-- Concrete tool-parameter bags used to witness the year-range rules. -/
def paramsBothYears : ToolParams :=
  { from_publication_year := some 2020, to_publication_year := some 2023 }

/-- Concrete bag with only a from-year. -/
def paramsFromOnly : ToolParams := { from_year := some 2020 }

/-- Concrete bag with only a to-year. -/
def paramsToOnly : ToolParams := { to_year := some 2023 }

/-- An upstream call that fails on the first two attempts and succeeds
on the third. -/
def retrySuccThird : Nat → Except String String :=
  fun n => if n = 0 then Except.error "e0"
    else if n = 1 then Except.error "e1"
    else Except.ok "v"

/-- An upstream call that fails on every attempt. -/
def retryAllFail : Nat → Except String String :=
  fun n => Except.error ("err" ++ toString n)

/-- A concrete work record with six authors and a three-word abstract
index, used to witness the summary projection. -/
def exampleWork : Work :=
  { authorships := some [⟨"a1", ["i1", "i2", "i3"]⟩, ⟨"a2", []⟩, ⟨"a3", []⟩,
      ⟨"a4", []⟩, ⟨"a5", []⟩, ⟨"a6", []⟩],
    abstract_inverted_index := some [("alpha", [0]), ("beta", [1]), ("gamma", [2])] }

/-! ## Helper lemmas -/

/-- Claim C1 (code_bug evidence): `getEntity` builds the request path by
interpolating the incoming identifier unchanged; a bare DOI is not given
the `doi:` prefix (and no identifier form is percent-encoded), so the
claimed normalization does not happen. -/
theorem getEntity_no_identifier_normalization :
    getEntityRequestPath "works" "10.1371/journal.pone.0000000" =
      "/works/10.1371/journal.pone.0000000" ∧
    getEntityRequestPath "works" "10.1371/journal.pone.0000000" ≠
      "/works/doi:10.1371/journal.pone.0000000" ∧
    getEntityCacheKey "works" "10.1371/journal.pone.0000000" =
      "works/10.1371/journal.pone.0000000" := by
  refine ⟨rfl, by decide, rfl⟩

/-- Claim C3 (code_bug evidence): `buildQueryParams` transmits a bare
sort field unchanged; the `:desc` suffix the claim (and
`tests/sort-fix.test.ts`) requires is never appended. -/
theorem buildQueryParams_sort_passthrough :
    buildQueryParams { email := some "test@example.com", apiKey := none }
        { search := some "machine learning", sort := some "relevance_score" } =
      [("mailto", "test@example.com"), ("search", "machine learning"),
        ("sort", "relevance_score")] ∧
    ("relevance_score" : String) ≠ "relevance_score:desc" := by
  exact ⟨by decide, by decide⟩

/-- Claim C5 (counterexample): with `maxSize = 1`, inserting the two
distinct keys `""` and `"a"` leaves two entries and the first-inserted
key still present — `if (firstKey)` skips eviction of a falsy
(empty-string) oldest key, refuting the claim as stated. -/
theorem cache_eviction_counterexample :
    (insertKeys (SimpleCache.empty Nat 1 300000) ["", "a"] 0 0).entries.length = 2 ∧
    ¬ (insertKeys (SimpleCache.empty Nat 1 300000) ["", "a"] 0 0).entries.length = 1 ∧
    "" ∈ (insertKeys (SimpleCache.empty Nat 1 300000) ["", "a"] 0 0).entries.map
      Prod.fst := by
  refine ⟨by decide, by decide, by decide⟩

/-- Claim C9 (counterexample): two filter objects with exactly the same
key-to-value entries but different insertion order produce different
cache keys, and the second `searchEntities` call is a miss (two upstream
calls), refuting order-insensitivity of the cache key. -/
theorem searchCacheKey_order_sensitive :
    List.Perm [("a", FilterVal.str "1"), ("b", FilterVal.str "2")]
      [("b", FilterVal.str "2"), ("a", FilterVal.str "1")] ∧
    searchCacheKey {} "works"
        { filter := some [("a", FilterVal.str "1"), ("b", FilterVal.str "2")] } ≠
      searchCacheKey {} "works"
        { filter := some [("b", FilterVal.str "2"), ("a", FilterVal.str "1")] } ∧
    (searchEntities true {} (0 : Nat) "works"
        { filter := some [("b", FilterVal.str "2"), ("a", FilterVal.str "1")] } 0
        (searchEntities true {} (0 : Nat) "works"
          { filter := some [("a", FilterVal.str "1"), ("b", FilterVal.str "2")] } 0
          (initialClientState Nat 1000 300000)).2).2.upstreamCalls = 2 := by
  refine ⟨by decide, by decide, by decide⟩

/-- Claim C10 (counterexample): at capacity with oldest key `""`,
overwriting the existing non-oldest key `"b"` evicts nothing — the cache
keeps 2 entries (not `maxSize - 1`) and the oldest entry survives,
refuting the claim as stated. -/
theorem cacheSet_overwrite_counterexample :
    ((SimpleCache.set (⟨[("", ⟨0, 0⟩), ("b", ⟨0, 0⟩)], 2, 300000⟩ : SimpleCache Nat)
        "b" 1 5).entries.length = 2) ∧
    ¬ ((SimpleCache.set (⟨[("", ⟨0, 0⟩), ("b", ⟨0, 0⟩)], 2, 300000⟩ : SimpleCache Nat)
        "b" 1 5).entries.length = 2 - 1) ∧
    "" ∈ (SimpleCache.set (⟨[("", ⟨0, 0⟩), ("b", ⟨0, 0⟩)], 2, 300000⟩ : SimpleCache Nat)
        "b" 1 5).entries.map Prod.fst := by
  refine ⟨by decide, by decide, by decide⟩

theorem passThroughFilters_no_year (p : ToolParams) :
    (passThroughFilters p).filter (fun kv => kv.1 == "publication_year") = [] := by
  unfold passThroughFilters
  cases p.is_oa <;> simp only [List.filter_append] <;> split_ifs <;> simp

theorem yearFilterEntries_filter_self (p : ToolParams) :
    (yearFilterEntries p).filter (fun kv => kv.1 == "publication_year") =
      yearFilterEntries p := by
  unfold yearFilterEntries
  split_ifs <;> simp

theorem buildFilter_filter_year (p : ToolParams) :
    (buildFilter p).filter (fun kv => kv.1 == "publication_year") =
      yearFilterEntries p := by
  rw [buildFilter, List.filter_append, passThroughFilters_no_year,
    yearFilterEntries_filter_self, List.append_nil]

/-- Claim C2: for every tool-parameter bag, `buildFilter` emits at most
one filter entry for the `publication_year` key; when both a (truthy)
from-year and to-year resolve, the single entry is `"{from}-{to}"`; with
only a from-year it is `">{from-1}"`; with only a to-year it is
`"<{to+1}"`. -/
theorem buildFilter_publication_year_spec (p : ToolParams) :
    ((buildFilter p).filter (fun kv => kv.1 == "publication_year")).length ≤ 1 ∧
    (∀ f t : Int,
      jsOrNum p.from_publication_year p.from_year = some f → f ≠ 0 →
      jsOrNum p.to_publication_year p.to_year = some t → t ≠ 0 →
      (buildFilter p).filter (fun kv => kv.1 == "publication_year") =
        [("publication_year", FilterVal.str (toString f ++ "-" ++ toString t))]) ∧
    (∀ f : Int,
      jsOrNum p.from_publication_year p.from_year = some f → f ≠ 0 →
      numTruthy (jsOrNum p.to_publication_year p.to_year) = false →
      (buildFilter p).filter (fun kv => kv.1 == "publication_year") =
        [("publication_year", FilterVal.str (">" ++ toString (f - 1)))]) ∧
    (∀ t : Int,
      numTruthy (jsOrNum p.from_publication_year p.from_year) = false →
      jsOrNum p.to_publication_year p.to_year = some t → t ≠ 0 →
      (buildFilter p).filter (fun kv => kv.1 == "publication_year") =
        [("publication_year", FilterVal.str ("<" ++ toString (t + 1)))]) := by
  rw [buildFilter_filter_year]
  refine ⟨?_, ?_, ?_, ?_⟩
  · unfold yearFilterEntries; split_ifs <;> simp
  · intro f t hf hf0 ht ht0
    have hf2 : numTruthy (some f) = true := by simp [numTruthy, bne_iff_ne, hf0]
    have ht2 : numTruthy (some t) = true := by simp [numTruthy, bne_iff_ne, ht0]
    simp [yearFilterEntries, hf, ht, hf2, ht2]
  · intro f hf hf0 hnt
    have hf2 : numTruthy (some f) = true := by simp [numTruthy, bne_iff_ne, hf0]
    simp [yearFilterEntries, hf, hf2, hnt]
  · intro t hnf ht ht0
    have ht2 : numTruthy (some t) = true := by simp [numTruthy, bne_iff_ne, ht0]
    simp [yearFilterEntries, ht, ht2, hnf]

/-- Witness for C2 at the concrete bags (2020, 2023), 2020-only and
2023-only. -/
theorem buildFilter_publication_year_spec_witness :
    (buildFilter paramsBothYears).filter (fun kv => kv.1 == "publication_year") =
      [("publication_year", FilterVal.str "2020-2023")] ∧
    (buildFilter paramsFromOnly).filter (fun kv => kv.1 == "publication_year") =
      [("publication_year", FilterVal.str ">2019")] ∧
    (buildFilter paramsToOnly).filter (fun kv => kv.1 == "publication_year") =
      [("publication_year", FilterVal.str "<2024")] := by
  refine ⟨?_, ?_, ?_⟩
  · exact ((buildFilter_publication_year_spec paramsBothYears).2.1 2020 2023 rfl
      (by decide) rfl (by decide)).trans (by decide)
  · exact ((buildFilter_publication_year_spec paramsFromOnly).2.2.1 2020 rfl
      (by decide) (by decide)).trans (by decide)
  · exact ((buildFilter_publication_year_spec paramsToOnly).2.2.2 2023 (by decide) rfl
      (by decide)).trans (by decide)

theorem cachedFetch_first {T : Type} (key : String) (v : T) (t M ttl : Nat) :
    cachedFetch true key v t (initialClientState T M ttl) =
      (v, ⟨⟨[(key, ⟨v, t⟩)], M, ttl⟩, 1⟩) := by
  unfold cachedFetch initialClientState SimpleCache.empty SimpleCache.get SimpleCache.set mapSet
  simp only [List.find?_nil]
  split_ifs <;> simp_all [mapDelete, List.head?_nil, List.any_nil]

theorem cachedFetch_hit {T : Type} (key : String) (v0 v : T) (t0 t M ttl cs : Nat)
    (h : t - t0 ≤ ttl) :
    cachedFetch true key v t ⟨⟨[(key, ⟨v0, t0⟩)], M, ttl⟩, cs⟩ =
      (v0, ⟨⟨[(key, ⟨v0, t0⟩)], M, ttl⟩, cs⟩) := by
  unfold cachedFetch SimpleCache.get
  have hc : (t - t0 > ttl) = False := by
    simp only [eq_iff_iff, iff_false]
    omega
  simp only [List.find?_cons, beq_self_eq_true, hc]
  simp

theorem cachedFetch_disabled {T : Type} (key : String) (v : T) (t : Nat)
    (st : ClientState T) :
    cachedFetch false key v t st =
      (v, { st with upstreamCalls := st.upstreamCalls + 1 }) := rfl

/-- Claim C4: on a fresh client, invoking the same `getEntity` (or
`searchEntities`) query twice within the TTL performs exactly one
upstream call with `enableCache = true` (the second result is the cached
first response) and exactly two with `enableCache = false`. -/
theorem cache_idempotence {T : Type} (v1 v2 : T) (entityType id : String)
    (cfg : ClientCfg) (o : SearchOptions) (M ttl t1 t2 : Nat)
    (h : t2 - t1 ≤ ttl) :
    ((getEntity true v2 entityType id t2
        (getEntity true v1 entityType id t1 (initialClientState T M ttl)).2).1 = v1 ∧
      (getEntity true v2 entityType id t2
        (getEntity true v1 entityType id t1 (initialClientState T M ttl)).2).2.upstreamCalls = 1) ∧
    (getEntity false v2 entityType id t2
        (getEntity false v1 entityType id t1 (initialClientState T M ttl)).2).2.upstreamCalls = 2 ∧
    ((searchEntities true cfg v2 entityType o t2
        (searchEntities true cfg v1 entityType o t1 (initialClientState T M ttl)).2).1 = v1 ∧
      (searchEntities true cfg v2 entityType o t2
        (searchEntities true cfg v1 entityType o t1 (initialClientState T M ttl)).2).2.upstreamCalls = 1) ∧
    (searchEntities false cfg v2 entityType o t2
        (searchEntities false cfg v1 entityType o t1 (initialClientState T M ttl)).2).2.upstreamCalls = 2 := by
  unfold getEntity searchEntities
  rw [cachedFetch_first, cachedFetch_first, cachedFetch_disabled, cachedFetch_disabled]
  dsimp only
  rw [cachedFetch_hit _ _ _ _ _ _ _ _ h, cachedFetch_hit _ _ _ _ _ _ _ _ h,
    cachedFetch_disabled, cachedFetch_disabled]
  simp [initialClientState]

/-- Witness for C4 at a concrete work lookup. -/
theorem cache_idempotence_witness :
    ((getEntity true 10 "works" "W12345" 0
        (getEntity true 7 "works" "W12345" 0 (initialClientState Nat 1000 300000)).2).1 = 7 ∧
      (getEntity true 10 "works" "W12345" 0
        (getEntity true 7 "works" "W12345" 0 (initialClientState Nat 1000 300000)).2).2.upstreamCalls = 1) ∧
    (getEntity false 10 "works" "W12345" 0
        (getEntity false 7 "works" "W12345" 0 (initialClientState Nat 1000 300000)).2).2.upstreamCalls = 2 := by
  have h := cache_idempotence (T := Nat) 7 10 "works" "W12345" {} {} 1000 300000 0 0
    (by decide)
  exact ⟨h.1, h.2.1⟩

/-- Claim C9 (amended): the cache key of `searchEntities` is a
deterministic function of the entity type and the normalized query
parameters — any two option records (regardless of structural identity)
that normalize to the same `buildQueryParams` output get the same key,
and the second of two such calls is served from cache with a single
upstream call.  (Order-insensitivity over filter entries fails; see the
counterexample.) -/
theorem searchCacheKey_deterministic {T : Type} (cfg : ClientCfg) (entityType : String)
    (o1 o2 : SearchOptions) (v1 v2 : T) (M ttl t1 t2 : Nat)
    (hp : buildQueryParams cfg o1 = buildQueryParams cfg o2)
    (h : t2 - t1 ≤ ttl) :
    searchCacheKey cfg entityType o1 = searchCacheKey cfg entityType o2 ∧
    (searchEntities true cfg v2 entityType o2 t2
        (searchEntities true cfg v1 entityType o1 t1 (initialClientState T M ttl)).2).1 = v1 ∧
    (searchEntities true cfg v2 entityType o2 t2
        (searchEntities true cfg v1 entityType o1 t1 (initialClientState T M ttl)).2).2.upstreamCalls = 1 := by
  have hk : searchCacheKey cfg entityType o1 = searchCacheKey cfg entityType o2 := by
    unfold searchCacheKey
    rw [hp]
  refine ⟨hk, ?_⟩
  unfold searchEntities
  rw [cachedFetch_first, ← hk]
  dsimp only
  rw [cachedFetch_hit _ _ _ _ _ _ _ _ h]
  exact ⟨rfl, rfl⟩

/-- Witness for C9: `page := some 0` and an absent page are structurally
different options with the same normalized parameters (JS `0` is falsy),
hence the same key and a cache hit. -/
theorem searchCacheKey_deterministic_witness :
    buildQueryParams {} { page := some 0 } = buildQueryParams {} {} ∧
    ({ page := some 0 } : SearchOptions) ≠ ({} : SearchOptions) ∧
    searchCacheKey {} "works" { page := some 0 } = searchCacheKey {} "works" {} ∧
    (searchEntities true {} (5 : Nat) "works" {} 0
        (searchEntities true {} (3 : Nat) "works" { page := some 0 } 0
          (initialClientState Nat 1000 300000)).2).1 = 3 ∧
    (searchEntities true {} (5 : Nat) "works" {} 0
        (searchEntities true {} (3 : Nat) "works" { page := some 0 } 0
          (initialClientState Nat 1000 300000)).2).2.upstreamCalls = 1 := by
  have h := searchCacheKey_deterministic (T := Nat) {} "works" { page := some 0 } {}
    3 5 1000 300000 0 0 (by decide) (by decide)
  exact ⟨by decide, by decide, h.1, h.2.1, h.2.2⟩

theorem mapSet_not_mem {T : Type} (es : List (String × CacheEntry T)) (k : String)
    (e : CacheEntry T) (h : ∀ kv ∈ es, kv.1 ≠ k) :
    mapSet es k e = es ++ [(k, e)] := by
  unfold mapSet
  rw [if_neg]
  simp only [List.any_eq_true, beq_iff_eq, not_exists, not_and]
  exact h

theorem mapSet_keys_of_mem {T : Type} (es : List (String × CacheEntry T)) (k : String)
    (e : CacheEntry T) (h : k ∈ es.map Prod.fst) :
    (mapSet es k e).map Prod.fst = es.map Prod.fst ∧
    (mapSet es k e).length = es.length := by
  unfold mapSet
  rw [if_pos]
  · constructor
    · rw [List.map_map]
      apply List.map_congr_left
      intro kv _
      by_cases hkv : kv.1 = k
      · simp [hkv]
      · simp [hkv]
    · simp
  · simp only [List.any_eq_true, beq_iff_eq]
    obtain ⟨kv, hkv, hfst⟩ := List.mem_map.mp h
    exact ⟨kv, hkv, hfst⟩

theorem set_of_lt {T : Type} (c : SimpleCache T) (k : String) (v : T) (t : Nat)
    (h : c.entries.length < c.maxSize) :
    SimpleCache.set c k v t = { c with entries := mapSet c.entries k ⟨v, t⟩ } := by
  unfold SimpleCache.set
  rw [if_neg (by omega)]

theorem insertKeys_append {T : Type} (c : SimpleCache T) (xs ys : List String)
    (v : T) (t : Nat) :
    insertKeys c (xs ++ ys) v t = insertKeys (insertKeys c xs v t) ys v t := by
  unfold insertKeys
  exact List.foldl_append _ _ _ _

theorem insertKeys_fill {T : Type} (v : T) (t : Nat) :
    ∀ (ks : List String) (c : SimpleCache T),
      c.entries.length + ks.length ≤ c.maxSize →
      (c.entries.map Prod.fst ++ ks).Nodup →
      insertKeys c ks v t =
        { c with entries := c.entries ++ ks.map (fun k => (k, ⟨v, t⟩)) }
  | [], c, _, _ => by simp [insertKeys]
  | k :: ks, c, hlen, hnd => by
    have hnotmem : ∀ kv ∈ c.entries, kv.1 ≠ k := by
      intro kv hkv hk
      have hdisj := (List.nodup_append.mp hnd).2.2
      exact hdisj (hk ▸ List.mem_map_of_mem Prod.fst hkv) (List.mem_cons_self k ks)
    have hstep : SimpleCache.set c k v t =
        { c with entries := c.entries ++ [(k, ⟨v, t⟩)] } := by
      rw [set_of_lt c k v t (by simp at hlen; omega), mapSet_not_mem _ _ _ hnotmem]
    have hrec := insertKeys_fill v t ks { c with entries := c.entries ++ [(k, ⟨v, t⟩)] }
      (by simp at hlen ⊢; omega)
      (by
        simp only [List.map_append, List.map_cons, List.map_nil, List.append_assoc]
        exact hnd)
    calc insertKeys c (k :: ks) v t
        = insertKeys { c with entries := c.entries ++ [(k, ⟨v, t⟩)] } ks v t := by
          unfold insertKeys
          simp only [List.foldl_cons]
          rw [hstep]
      _ = { c with entries := c.entries ++ (k :: ks).map (fun k => (k, ⟨v, t⟩)) } := by
          rw [hrec]
          simp

theorem mapDelete_head {T : Type} (k0 : String) (e0 : CacheEntry T)
    (tl : List (String × CacheEntry T)) (htl : ∀ kv ∈ tl, kv.1 ≠ k0) :
    mapDelete ((k0, e0) :: tl) k0 = tl := by
  unfold mapDelete
  rw [List.filter_cons_of_neg (by simp)]
  apply List.filter_eq_self.mpr
  intro kv hkv
  simp [bne_iff_ne, htl kv hkv]

theorem set_evict {T : Type} (k0 : String) (e0 : CacheEntry T)
    (tl : List (String × CacheEntry T)) (M ttl : Nat) (k : String) (v : T) (t : Nat)
    (hcap : ((k0, e0) :: tl).length ≥ M)
    (hk0 : k0 ≠ "")
    (htl : ∀ kv ∈ tl, kv.1 ≠ k0) :
    SimpleCache.set ⟨(k0, e0) :: tl, M, ttl⟩ k v t =
      ⟨mapSet tl k ⟨v, t⟩, M, ttl⟩ := by
  unfold SimpleCache.set
  rw [if_pos hcap]
  simp only [List.head?_cons]
  rw [if_pos (by simp [bne_iff_ne, hk0])]
  rw [mapDelete_head k0 e0 tl htl]

/-- Claim C5 (amended): for `1 ≤ maxSize` and distinct non-empty keys,
inserting `maxSize + 1` keys into a fresh cache leaves exactly the last
`maxSize` keys in insertion order (so each eviction removed the single
oldest-inserted entry — FIFO, not LRU), the cache holds exactly
`maxSize` entries, and the first-inserted key is absent. -/
theorem cache_eviction_fifo {T : Type} (M : Nat) (hM : 1 ≤ M) (k0 : String)
    (rest : List String) (v : T) (t ttl : Nat)
    (hlen : rest.length = M)
    (hnd : (k0 :: rest).Nodup)
    (hne : ∀ k ∈ k0 :: rest, k ≠ "") :
    ((insertKeys (SimpleCache.empty T M ttl) (k0 :: rest) v t).entries.map Prod.fst
        = rest) ∧
    (insertKeys (SimpleCache.empty T M ttl) (k0 :: rest) v t).entries.length = M ∧
    k0 ∉ (insertKeys (SimpleCache.empty T M ttl) (k0 :: rest) v t).entries.map Prod.fst := by
  have hrest : rest ≠ [] := by
    intro hcon
    rw [hcon] at hlen
    simp at hlen
    omega
  have hk0rest : k0 ∉ rest := (List.nodup_cons.mp hnd).1
  have hrestnd : rest.Nodup := (List.nodup_cons.mp hnd).2
  have hsplit : rest.dropLast ++ [rest.getLast hrest] = rest :=
    List.dropLast_append_getLast hrest
  have hdlen : rest.dropLast.length = M - 1 := by
    rw [List.length_dropLast, hlen]
  have hzdrop : rest.getLast hrest ∉ rest.dropLast := by
    have h2 : (rest.dropLast ++ [rest.getLast hrest]).Nodup := by rw [hsplit]; exact hrestnd
    intro hcon
    exact List.disjoint_of_nodup_append h2 hcon (List.mem_singleton_self _)
  have hcons : k0 :: rest = (k0 :: rest.dropLast) ++ [rest.getLast hrest] := by
    rw [List.cons_append, hsplit]
  have hsub : (k0 :: rest.dropLast).Sublist (k0 :: rest) :=
    (List.dropLast_sublist rest).cons₂ k0
  have hfill := insertKeys_fill v t (k0 :: rest.dropLast) (SimpleCache.empty T M ttl)
    (by simp [SimpleCache.empty, hdlen]; omega)
    (by simpa [SimpleCache.empty] using hnd.sublist hsub)
  have hevict := set_evict k0 ⟨v, t⟩
    (rest.dropLast.map (fun k => (k, ⟨v, t⟩))) M ttl (rest.getLast hrest) v t
    (by simp [hdlen]; omega)
    (hne k0 (List.mem_cons_self _ _))
    (by
      intro kv hkv hcon
      obtain ⟨x, hx, rfl⟩ := List.mem_map.mp hkv
      exact hk0rest (hcon ▸ (List.dropLast_sublist rest).subset hx))
  have hnew : ∀ kv ∈ rest.dropLast.map (fun k => ((k : String), (⟨v, t⟩ : CacheEntry T))),
      kv.1 ≠ rest.getLast hrest := by
    intro kv hkv hcon
    obtain ⟨x, hx, rfl⟩ := List.mem_map.mp hkv
    exact hzdrop (hcon ▸ hx)
  have hfinal : insertKeys (SimpleCache.empty T M ttl) (k0 :: rest) v t =
      ⟨rest.map (fun k => (k, ⟨v, t⟩)), M, ttl⟩ := by
    rw [hcons, insertKeys_append, hfill]
    have hconv : ({ SimpleCache.empty T M ttl with
        entries := (SimpleCache.empty T M ttl).entries ++
          (k0 :: rest.dropLast).map (fun k => (k, ⟨v, t⟩)) } : SimpleCache T) =
        ⟨(k0, ⟨v, t⟩) :: rest.dropLast.map (fun k => (k, ⟨v, t⟩)), M, ttl⟩ := by
      simp [SimpleCache.empty]
    rw [hconv]
    show SimpleCache.set _ _ v t = _
    rw [hevict, mapSet_not_mem _ _ _ hnew]
    rw [show rest.dropLast.map (fun k => ((k : String), (⟨v, t⟩ : CacheEntry T))) ++
        [(rest.getLast hrest, ⟨v, t⟩)] =
        (rest.dropLast ++ [rest.getLast hrest]).map (fun k => (k, ⟨v, t⟩)) by
      simp]
    rw [hsplit]
  rw [hfinal]
  have hid : (Prod.fst ∘ fun k => ((k : String), (⟨v, t⟩ : CacheEntry T))) = id := rfl
  refine ⟨?_, ?_, ?_⟩
  · simp only [List.map_map, hid, List.map_id]
  · simp [hlen]
  · simp only [List.map_map, hid, List.map_id]
    exact hk0rest

/-- Witness for C5 with `maxSize = 3` and keys k1..k4. -/
theorem cache_eviction_fifo_witness :
    ((insertKeys (SimpleCache.empty Nat 3 300000) ["k1", "k2", "k3", "k4"] 0 0).entries.map
        Prod.fst = ["k2", "k3", "k4"]) ∧
    (insertKeys (SimpleCache.empty Nat 3 300000)
        ["k1", "k2", "k3", "k4"] 0 0).entries.length = 3 ∧
    "k1" ∉ (insertKeys (SimpleCache.empty Nat 3 300000)
        ["k1", "k2", "k3", "k4"] 0 0).entries.map Prod.fst :=
  cache_eviction_fifo 3 (by decide) "k1" ["k2", "k3", "k4"] 0 0 300000
    (by decide) (by decide) (by decide)

/-- Claim C10 (amended): when the cache is at capacity and the oldest
key is non-empty (truthy), `set` on an already-present non-oldest key
still evicts the oldest entry, leaving `maxSize - 1` entries — strictly
fewer than before the call. -/
theorem cacheSet_overwrite_at_capacity {T : Type} (k0 : String) (e0 : CacheEntry T)
    (tl : List (String × CacheEntry T)) (M ttl : Nat) (k : String) (v : T) (t : Nat)
    (hcap : ((k0, e0) :: tl).length = M)
    (hk0 : k0 ≠ "")
    (hnd : (((k0, e0) :: tl).map Prod.fst).Nodup)
    (hmem : k ∈ tl.map Prod.fst) :
    (SimpleCache.set ⟨(k0, e0) :: tl, M, ttl⟩ k v t).entries.length = M - 1 ∧
    (SimpleCache.set ⟨(k0, e0) :: tl, M, ttl⟩ k v t).entries.length <
      ((k0, e0) :: tl).length ∧
    k0 ∉ (SimpleCache.set ⟨(k0, e0) :: tl, M, ttl⟩ k v t).entries.map Prod.fst := by
  have hk0mem : k0 ∉ tl.map Prod.fst := by
    have := hnd
    simp only [List.map_cons] at this
    exact (List.nodup_cons.mp this).1
  have hk0tl : ∀ kv ∈ tl, kv.1 ≠ k0 := by
    intro kv hkv hcon
    exact hk0mem (hcon ▸ List.mem_map_of_mem Prod.fst hkv)
  rw [set_evict k0 e0 tl M ttl k v t (by omega) hk0 hk0tl]
  obtain ⟨hkeys, hlen⟩ := mapSet_keys_of_mem tl k ⟨v, t⟩ hmem
  simp only [List.length_cons] at hcap
  refine ⟨?_, ?_, ?_⟩
  · simp only [hlen]
    omega
  · simp only [hlen, List.length_cons]
    omega
  · simp only [hkeys]
    exact hk0mem

/-- Witness for C10: overwriting `"b"` in a full 2-entry cache evicts
`"a"` and shrinks the cache to one entry. -/
theorem cacheSet_overwrite_at_capacity_witness :
    (SimpleCache.set (⟨[("a", ⟨0, 0⟩), ("b", ⟨1, 0⟩)], 2, 300000⟩ : SimpleCache Nat)
        "b" 5 9).entries.length = 2 - 1 ∧
    (SimpleCache.set (⟨[("a", ⟨0, 0⟩), ("b", ⟨1, 0⟩)], 2, 300000⟩ : SimpleCache Nat)
        "b" 5 9).entries.length < 2 ∧
    "a" ∉ (SimpleCache.set (⟨[("a", ⟨0, 0⟩), ("b", ⟨1, 0⟩)], 2, 300000⟩ : SimpleCache Nat)
        "b" 5 9).entries.map Prod.fst := by
  have h := cacheSet_overwrite_at_capacity (T := Nat) "a" ⟨0, 0⟩ [("b", ⟨1, 0⟩)]
    2 300000 "b" 5 9 (by decide) (by decide) (by decide) (by decide)
  exact ⟨h.1, h.2.1, h.2.2⟩

theorem retryGo_delays {α : Type} (cfg : RetryConfig) (context : String)
    (fn : Nat → Except String α) :
    ∀ (r a : Nat) (lastError : Option String), ∃ j, j ≤ r - 1 ∧
      (retryGo cfg context fn r a lastError).2.2 =
        (List.range j).map
          (fun k => Nat.min (cfg.initialDelayMs * cfg.backoffFactor ^ (a + k))
            cfg.maxDelayMs)
  | 0, a, lastError => ⟨0, by simp [retryGo]⟩
  | r + 1, a, lastError => by
    unfold retryGo
    cases hfn : fn a with
    | ok v => exact ⟨0, by simp⟩
    | error e =>
      obtain ⟨j, hj, hd⟩ := retryGo_delays cfg context fn r (a + 1) (some e)
      by_cases hr : r > 0
      · refine ⟨j + 1, by omega, ?_⟩
        simp only [hr, if_pos]
        rw [List.range_succ_eq_map, List.map_cons, List.map_map]
        simp only [Nat.add_zero]
        congr 1
        rw [hd]
        apply List.map_congr_left
        intro x _
        simp only [Function.comp_apply]
        have hx : a + 1 + x = a + (x + 1) := by omega
        rw [hx]
      · have hr0 : r = 0 := by omega
        subst hr0
        refine ⟨0, by omega, ?_⟩
        simp only [gt_iff_lt, lt_self_iff_false, if_false]
        simp [retryGo]

/-- Claim C6: the delay slept after failed attempt `k` (0-based) is
`min(initialDelay * backoffFactor^k, maxDelay)`; with the configured
retry policy (3 attempts, 1000ms initial, factor 2, 10000ms cap), a call
failing on attempts 1 and 2 and succeeding on attempt 3 returns the
success after exactly 3 attempts (delays 1000, 2000), and a call failing
on all 3 attempts raises a terminal error embedding the attempt count 3
and the last underlying error message. -/
theorem retryWithBackoff_spec {α : Type} (fn : Nat → Except String α)
    (context : String) :
    (∀ cfg : RetryConfig, ∃ j, j ≤ cfg.maxRetries - 1 ∧
      (retryWithBackoff cfg context fn).2.2 =
        (List.range j).map
          (fun k => Nat.min (cfg.initialDelayMs * cfg.backoffFactor ^ k)
            cfg.maxDelayMs)) ∧
    (∀ (e0 e1 : String) (v : α),
      fn 0 = Except.error e0 → fn 1 = Except.error e1 → fn 2 = Except.ok v →
      retryWithBackoff configRetry context fn = (Except.ok v, 3, [1000, 2000])) ∧
    (∀ e0 e1 e2 : String,
      fn 0 = Except.error e0 → fn 1 = Except.error e1 → fn 2 = Except.error e2 →
      retryWithBackoff configRetry context fn =
        (Except.error (context ++ ": Failed after 3 attempts. Last error: " ++ e2),
          3, [1000, 2000])) := by
  refine ⟨?_, ?_, ?_⟩
  · intro cfg
    obtain ⟨j, hj, hd⟩ := retryGo_delays cfg context fn cfg.maxRetries 0 none
    refine ⟨j, hj, ?_⟩
    rw [retryWithBackoff, hd]
    apply List.map_congr_left
    intro x _
    simp
  · intro e0 e1 v h0 h1 h2
    unfold retryWithBackoff configRetry
    simp only
    unfold retryGo
    rw [h0]
    simp only
    unfold retryGo
    rw [h1]
    simp only
    unfold retryGo
    rw [h2]
    norm_num
  · intro e0 e1 e2 h0 h1 h2
    unfold retryWithBackoff configRetry
    simp only
    unfold retryGo
    rw [h0]
    simp only
    unfold retryGo
    rw [h1]
    simp only
    unfold retryGo
    rw [h2]
    simp only
    unfold retryGo
    norm_num
    have h3 : (toString (3 : Nat)) = "3" := rfl
    rw [h3, String.append_assoc _ "3" " attempts. Last error: ",
      String.append_assoc _ ": Failed after " ("3" ++ " attempts. Last error: ")]
    congr 1

/-- Witness for C6 at concrete outcome schedules. -/
theorem retryWithBackoff_spec_witness :
    retryWithBackoff configRetry "searchEntities(works)" retrySuccThird =
      (Except.ok "v", 3, [1000, 2000]) ∧
    retryWithBackoff configRetry "searchEntities(works)" retryAllFail =
      (Except.error
          ("searchEntities(works)" ++ ": Failed after 3 attempts. Last error: " ++ "err2"),
        3, [1000, 2000]) := by
  constructor
  · exact (retryWithBackoff_spec retrySuccThird "searchEntities(works)").2.1
      "e0" "e1" "v" rfl rfl rfl
  · exact (retryWithBackoff_spec retryAllFail "searchEntities(works)").2.2
      "err0" "err1" "err2" rfl rfl rfl

theorem assocSet_not_mem (m : List (Nat × String)) (p : Nat) (w : String)
    (h : ∀ e ∈ m, e.1 ≠ p) : assocSet m p w = m ++ [(p, w)] := by
  unfold assocSet
  rw [if_neg]
  simp only [List.any_eq_true, beq_iff_eq, not_exists, not_and]
  exact h

theorem foldl_positions (w : String) :
    ∀ (ps : List Nat) (m : List (Nat × String)),
      (m.map Prod.fst ++ ps).Nodup →
      ps.foldl (fun m2 p => assocSet m2 p w) m = m ++ ps.map (fun p => (p, w))
  | [], m, _ => by simp
  | p :: ps, m, hnd => by
    have hp : ∀ e ∈ m, e.1 ≠ p := by
      intro e he hcon
      exact (List.disjoint_of_nodup_append hnd)
        (hcon ▸ List.mem_map_of_mem Prod.fst he) (List.mem_cons_self p ps)
    rw [List.foldl_cons, assocSet_not_mem m p w hp]
    rw [foldl_positions w ps (m ++ [(p, w)])
      (by simp only [List.map_append, List.map_cons, List.map_nil, List.append_assoc]
          exact hnd)]
    simp

theorem buildWords_aux_eq :
    ∀ (ix : List (String × List Nat)) (m : List (Nat × String)),
      (m.map Prod.fst ++ (indexPairs ix).map Prod.fst).Nodup →
      ix.foldl (fun acc e => e.2.foldl (fun m2 p => assocSet m2 p e.1) acc) m =
        m ++ indexPairs ix
  | [], m, _ => by simp [indexPairs]
  | e :: tl, m, hnd => by
    have hsplit : indexPairs (e :: tl) =
        e.2.map (fun p => (p, e.1)) ++ indexPairs tl := by
      simp [indexPairs]
    have hpairfst : (e.2.map (fun p => (p, e.1))).map Prod.fst = e.2 := by
      rw [List.map_map,
        show (Prod.fst ∘ fun p => ((p : Nat), e.1)) = id from rfl, List.map_id]
    have hkeys : (indexPairs (e :: tl)).map Prod.fst =
        e.2 ++ (indexPairs tl).map Prod.fst := by
      rw [hsplit, List.map_append, hpairfst]
    have hnd2 : ((m.map Prod.fst ++ e.2) ++ (indexPairs tl).map Prod.fst).Nodup := by
      rw [List.append_assoc]
      rw [hkeys] at hnd
      exact hnd
    have hinner : (m.map Prod.fst ++ e.2).Nodup :=
      hnd2.sublist (List.sublist_append_left _ _)
    rw [List.foldl_cons, foldl_positions e.1 e.2 m hinner]
    rw [buildWords_aux_eq tl (m ++ e.2.map (fun p => (p, e.1)))
      (by
        simp only [List.map_append, hpairfst]
        exact hnd2)]
    rw [hsplit, List.append_assoc]

theorem buildWords_eq (ix : List (String × List Nat))
    (hnd : ((indexPairs ix).map Prod.fst).Nodup) :
    buildWords ix = indexPairs ix := by
  have h := buildWords_aux_eq ix [] (by simpa using hnd)
  simpa [buildWords] using h

/-- Claim C7: for every inverted index whose position occurrences are
distinct and cover exactly `0..n-1`, `reconstructAbstract` places each
word at every one of its positions and concatenates the words in
ascending numeric position order, joined by single spaces (stated via
direct lookup in the flattened (position, word) pairs). -/
theorem reconstructAbstract_positional (ix : List (String × List Nat)) (n : Nat)
    (hnd : ((indexPairs ix).map Prod.fst).Nodup)
    (hcov : ∀ p, p ∈ (indexPairs ix).map Prod.fst ↔ p < n) :
    reconstructAbstract ix =
      String.intercalate " "
        ((List.range n).map (fun p => ((indexPairs ix).lookup p).getD "")) := by
  have hbw : buildWords ix = indexPairs ix := buildWords_eq ix hnd
  have hsorted : List.insertionSort (fun a b => a ≤ b)
      ((indexPairs ix).map Prod.fst) = List.range n := by
    haveI hanti : IsAntisymm Nat (fun a b : Nat => a ≤ b) :=
      ⟨fun a b h1 h2 => Nat.le_antisymm h1 h2⟩
    have hperm : (List.insertionSort (fun a b => a ≤ b)
        ((indexPairs ix).map Prod.fst)).Perm (List.range n) :=
      (List.perm_insertionSort _ _).trans
        ((List.perm_ext_iff_of_nodup hnd (List.nodup_range n)).mpr
          (fun p => by rw [hcov p, List.mem_range]))
    have hs1 : List.Sorted (fun a b : Nat => a ≤ b)
        (List.insertionSort (fun a b => a ≤ b) ((indexPairs ix).map Prod.fst)) :=
      List.sorted_insertionSort _ _
    have hs2 : List.Sorted (fun a b : Nat => a ≤ b) (List.range n) :=
      (List.pairwise_lt_range n).imp (fun h => le_of_lt h)
    exact List.eq_of_perm_of_sorted hperm hs1 hs2
  simp only [reconstructAbstract, hbw, hsorted]

/-- Witness for C7: the spec example index reconstructs to exactly
"the cat sat on the mat". -/
theorem reconstructAbstract_positional_witness :
    reconstructAbstract
        [("the", [0, 4]), ("cat", [1]), ("sat", [2]), ("on", [3]), ("mat", [5])] =
      "the cat sat on the mat" := by
  have h := reconstructAbstract_positional
    [("the", [0, 4]), ("cat", [1]), ("sat", [2]), ("on", [3]), ("mat", [5])] 6
    (by decide)
    (by
      intro p
      have hk : (indexPairs
          [("the", [0, 4]), ("cat", [1]), ("sat", [2]), ("on", [3]), ("mat", [5])]).map
            Prod.fst = [0, 4, 1, 2, 3, 5] := by decide
      rw [hk]
      simp only [List.mem_cons, List.not_mem_nil, or_false]
      omega)
  exact h.trans (by decide)

theorem jsSubstring_length_le (s : String) (n : Nat) : (jsSubstring s n).length ≤ n := by
  simp only [jsSubstring, String.length, List.length_take]
  exact Nat.min_le_left n s.data.length

/-- Claim C8: the summary projection keeps at most the first 5
authorship entries, sets `authors_truncated = true` exactly when the
source had more than 5 authors, and builds the abstract preview from the
first 100 distinct inverted-index keys in iteration order, truncated to
at most 500 characters with a trailing `"..."` marker. -/
theorem summarizeWork_spec (w : Work) :
    (summarizeWork w).authors.length ≤ 5 ∧
    (summarizeWork w).authors =
      ((w.authorships.getD []).take 5).map (fun a => ⟨a.name, a.institutions.take 2⟩) ∧
    ((summarizeWork w).authors_truncated = true ↔ 5 < (w.authorships.getD []).length) ∧
    (∀ ix, w.abstract_inverted_index = some ix →
      ∃ s, (summarizeWork w).abstract = some (s ++ "...") ∧
        s.length ≤ 500 ∧
        s = jsSubstring (String.intercalate " " ((ix.map Prod.fst).take 100)) 500 ∧
        ((ix.map Prod.fst).take 100).length ≤ 100 ∧
        ((ix.map Prod.fst).Nodup → ((ix.map Prod.fst).take 100).Nodup)) ∧
    (w.abstract_inverted_index = none → (summarizeWork w).abstract = none) := by
  refine ⟨?_, rfl, ?_, ?_, ?_⟩
  · simp [summarizeWork]
  · cases h : w.authorships with
    | none => simp [summarizeWork, h]
    | some l => simp [summarizeWork, h]
  · intro ix hix
    refine ⟨jsSubstring (String.intercalate " " ((ix.map Prod.fst).take 100)) 500,
      ?_, jsSubstring_length_le _ _, rfl, ?_, ?_⟩
    · simp [summarizeWork, hix]
    · simp [List.length_take]
    · intro h
      exact h.sublist (List.take_sublist _ _)
  · intro h
    simp [summarizeWork, h]

/-- Witness for C8 at a work with six authors and a three-word
abstract index. -/
theorem summarizeWork_spec_witness :
    (summarizeWork exampleWork).authors.length = 5 ∧
    (summarizeWork exampleWork).authors_truncated = true ∧
    (summarizeWork exampleWork).abstract = some "alpha beta gamma..." := by
  have h := summarizeWork_spec exampleWork
  obtain ⟨s, habs, hlen, hs, h100, hnd⟩ := h.2.2.2.1
    [("alpha", [0]), ("beta", [1]), ("gamma", [2])] rfl
  refine ⟨by decide, (h.2.2.1).mpr (by decide), ?_⟩
  rw [habs, hs]
  decide
